import Mathlib

/-!
# quickCLs: the command-line driver of the asymptotic CLs limit tool

A shallow embedding of `app/quickCLs.cxx`.  The program has a single function,
`main`, which

* parses the command line with `boost::program_options`,
* opens the input file and looks up the workspace, the model config and the
  dataset,
* configures an `asymCLsTool` through its setters,
* prepares the constant flags of the model parameters, and
* calls `runAsymptoticsCLs`.

The collaborators that live outside the file (the option parser, ROOT, the
engine, the tokenizer) enter the embedding at their interface: the outcome of
option parsing is a `CommandLine`, the file system and the string helpers are
the fields of an `Env`, the calls made on the engine are recorded in order in a
list of `Call`, and the parameters of the workspace are a store from names to
`RooRealVar` records that is passed explicitly.  Where the C++ would throw an
uncaught exception or dereference a null pointer, the embedding aborts.
-/

namespace quickCLs

/-! ## Data model -/

/-- A real-valued parameter of the workspace, as far as `main` touches it: its
value, its range and its constant flag. -/
structure RooRealVar where
  val : ℚ
  min : ℚ
  max : ℚ
  isConstant : Bool
  deriving DecidableEq

/-- The state of all parameters, keyed by name.  `setConstant`, `setVal` and
`setRange` act on the cell of one name. -/
abbrev Vars := String → RooRealVar

/-- The three parameter sets of a `RooStats::ModelConfig`, by name. -/
structure ModelConfig where
  globalObservables : List String
  nuisanceParameters : List String
  parametersOfInterest : List String
  deriving DecidableEq

/-- A `RooWorkspace`: `hasVar n` tells whether `ws->var(n)` is non-null, `vars`
is the state of its parameters, `obj n` is the model config stored under the
name `n` (if any), `hasData n` tells whether `ws->data(n)` is non-null. -/
structure RooWorkspace where
  hasVar : String → Bool
  vars : Vars
  obj : String → Option ModelConfig
  hasData : String → Bool

/-- An opened `TFile`: `get n` is the workspace stored under the name `n`. -/
structure TFile where
  get : String → Option RooWorkspace

/-- The collaborators of `main` that are not part of `quickCLs.cxx`.

* `openFile f` is `none` when `TFile(f).IsOpen()` is false;
* `Tokenize s d` is `auxUtils::Tokenize(s, d)`;
* `stof s` is the number `std::stof(s)` returns, `none` when it throws;
* `selectByName pat n` tells whether `selectByName(pat)` selects the
  parameter named `n`;
* `checkModel mc vars` is the value `asymCLsTool::checkModel` returns. -/
structure Env where
  openFile : String → Option TFile
  Tokenize : String → String → List String
  stof : String → Option ℚ
  selectByName : String → String → Bool
  checkModel : ModelConfig → Vars → Bool

/-- The outcome of `po::store` and `po::notify`. -/
inductive ParseOutcome where
  | ok
  | stdException
  | otherException
  deriving DecidableEq

/-- The parsed command line: for each option the value given, `none` when the
option does not occur (`vm.count` is then 0 unless the option has a default
value). -/
structure CommandLine where
  parse : ParseOutcome
  inputFile : Option String
  outputFile : Option String
  dataName : Option String
  wsName : Option String
  mcName : Option String
  snapshot : Option String
  poi : Option String
  fixNP : Option String
  betterBands : Option Bool
  betterNegBands : Option Bool
  setNegAtZero : Option Bool
  minStrat : Option Int
  printLevel : Option Int
  maxRetries : Option Int
  precision : Option ℚ
  verbose : Option Bool
  nllOffset : Option Bool
  optConst : Option Int
  doExp : Option Bool
  doObs : Option Bool
  doBlind : Option Bool
  doTilde : Option Bool
  killBelowFatal : Option Bool
  usePredFit : Option Bool
  condExp : Option Bool
  help : Bool

/-! ## The file-scope variables and their initial values (lines 10-41) -/

def _outputFile : String := ""
def _inputFile : String := ""
def _minAlgo : String := "Minuit2"
def _dataName : String := "combData"
def _wsName : String := "combWS"
def _mcName : String := "ModelConfig"
def _snapshot : String := ""
def _poiStr : String := ""
def _fixNPStr : String := ""
def _betterBands : Bool := true
def _betterNegativeBands : Bool := false
def _profileNegativeAtZero : Bool := false
def _maxRetries : Int := 3
def _printLevel : Int := -1
def _minStrategy : Int := 0
def _optConst : Int := 2
def _doExp : Bool := true
def _verbose : Bool := false
def _doBlind : Bool := true
def _doTilde : Bool := true
def _nllOffset : Bool := true
def _killBelowFatal : Bool := true
def _usePredFit : Bool := false
def _doObs : Bool := true && !_doBlind
def _conditionalExpected : Bool := true && !_doBlind
def _precision : ℚ := 0.005

/-- The file-scope variables as `po::notify` leaves them: an option with a
`default_value` holds the value given or else that default, which is the
initial value of its variable; an option without one (`inputFile`,
`outputFile`, `poi`, `fixNP`) leaves its variable untouched when absent. -/
structure Globals where
  outputFile : String
  inputFile : String
  minAlgo : String
  dataName : String
  wsName : String
  mcName : String
  snapshot : String
  poiStr : String
  fixNPStr : String
  betterBands : Bool
  betterNegativeBands : Bool
  profileNegativeAtZero : Bool
  maxRetries : Int
  printLevel : Int
  minStrategy : Int
  optConst : Int
  doExp : Bool
  verbose : Bool
  doBlind : Bool
  doTilde : Bool
  nllOffset : Bool
  killBelowFatal : Bool
  usePredFit : Bool
  doObs : Bool
  conditionalExpected : Bool
  precision : ℚ

/-- The effect of `po::notify` on the file-scope variables (lines 50-111). -/
def notify (cl : CommandLine) : Globals where
  outputFile := cl.outputFile.getD _outputFile
  inputFile := cl.inputFile.getD _inputFile
  minAlgo := _minAlgo
  dataName := cl.dataName.getD _dataName
  wsName := cl.wsName.getD _wsName
  mcName := cl.mcName.getD _mcName
  snapshot := cl.snapshot.getD _snapshot
  poiStr := cl.poi.getD _poiStr
  fixNPStr := cl.fixNP.getD _fixNPStr
  betterBands := cl.betterBands.getD _betterBands
  betterNegativeBands := cl.betterNegBands.getD _betterNegativeBands
  profileNegativeAtZero := cl.setNegAtZero.getD _profileNegativeAtZero
  maxRetries := cl.maxRetries.getD _maxRetries
  printLevel := cl.printLevel.getD _printLevel
  minStrategy := cl.minStrat.getD _minStrategy
  optConst := cl.optConst.getD _optConst
  doExp := cl.doExp.getD _doExp
  verbose := cl.verbose.getD _verbose
  doBlind := cl.doBlind.getD _doBlind
  doTilde := cl.doTilde.getD _doTilde
  nllOffset := cl.nllOffset.getD _nllOffset
  killBelowFatal := cl.killBelowFatal.getD _killBelowFatal
  usePredFit := cl.usePredFit.getD _usePredFit
  doObs := cl.doObs.getD _doObs
  conditionalExpected := cl.condExp.getD _conditionalExpected
  precision := cl.precision.getD _precision

/-! ## Calls on the engine -/

/-- A call `main` makes on the `asymCLsTool`, with the values passed.  For
`runAsymptoticsCLs` the workspace, model config and dataset are the ones looked
up before; the recorded arguments are the snapshot name, the two output names,
the target confidence level and the output file. -/
inductive Call where
  | setMinAlgo (s : String)
  | setStrategy (n : Int)
  | setPrintLevel (n : Int)
  | setBetterBands (b : Bool)
  | setProfileNegAtZero (b : Bool)
  | setBetterNegativeBands (b : Bool)
  | setDoTilde (b : Bool)
  | setDoBlind (b : Bool)
  | setVerbose (b : Bool)
  | setDoExpected (b : Bool)
  | setOptConst (n : Int)
  | setPrecision (p : ℚ)
  | setNLLOffset (b : Bool)
  | setMaxRetries (n : Int)
  | setPredictiveFit (b : Bool)
  | setKillBelowFatal (b : Bool)
  | setDoObserved (b : Bool)
  | setCondExpected (b : Bool)
  | checkModel (printModel : Bool)
  | runAsymptoticsCLs (snapshot limits results : String) (cl : ℚ) (outputFile : String)
  deriving DecidableEq

/-- The fit options set on the tool, in program order (lines 171-190). -/
def setFitOptions (g : Globals) : List Call :=
  [ .setMinAlgo g.minAlgo,
    .setStrategy g.minStrategy,
    .setPrintLevel g.printLevel,
    .setBetterBands g.betterBands,
    .setProfileNegAtZero g.betterNegativeBands,
    .setBetterNegativeBands g.profileNegativeAtZero,
    .setDoTilde g.doTilde,
    .setDoBlind g.doBlind,
    .setVerbose g.verbose,
    .setDoExpected g.doExp,
    .setOptConst g.optConst,
    .setPrecision g.precision,
    .setNLLOffset g.nllOffset,
    .setMaxRetries g.maxRetries,
    .setPredictiveFit g.usePredFit,
    .setKillBelowFatal g.killBelowFatal,
    .setDoObserved (g.doObs && !g.doBlind),
    .setCondExpected (g.conditionalExpected && !g.doBlind) ]

/-! ## Operations on parameters -/

/-- The method `RooRealVar::setConstant` on the parameter named `n`. -/
def setConstant (vars : Vars) (n : String) (b : Bool) : Vars :=
  fun m => if m = n then { vars m with isConstant := b } else vars m

/-- The test `RooNumber::isInfinite` of RooFit: a bound of magnitude 1e30 or
more counts as infinite. -/
def isInfinite (x : ℚ) : Bool :=
  decide (10 ^ 30 ≤ x) || decide (x ≤ -(10 ^ 30))

/-- The value `RooAbsRealLValue::inRange` hands back through its pointer
argument: `value` clipped into the range `[min, max]`.  A value above
`max + 1e-6` becomes `max`, a value below `min - 1e-6` becomes `min`; an
infinite bound does not clip. -/
def clipValue (min max value : ℚ) : ℚ :=
  if (!isInfinite min && decide (value < min - 1 / 10 ^ 6)) = true then min
  else if (!isInfinite max && decide (max + 1 / 10 ^ 6 < value)) = true then max
  else value

/-- The value `RooAbsRealLValue::inRange` returns: whether `value` lies in the
range `[min, max]`, up to 1e-6. -/
def inRange (min max value : ℚ) : Bool :=
  !((!isInfinite max && decide (max + 1 / 10 ^ 6 < value)) ||
    (!isInfinite min && decide (value < min - 1 / 10 ^ 6)))

/-- The method `RooRealVar::setVal` of RooFit on the parameter named `n`: the
value becomes `v` clipped into the range the parameter has at the time of the
call. -/
def setVal (vars : Vars) (n : String) (v : ℚ) : Vars :=
  fun m =>
    if m = n then { vars m with val := clipValue (vars m).min (vars m).max v }
    else vars m

/-- The method `RooRealVar::setRange` of RooFit on the parameter named `n`: the
range becomes `[lo, hi]`, or `[lo, lo]` when `lo > hi`, and a current value
that is not in the new range is set (with `setVal`) to its clipped value. -/
def setRange (vars : Vars) (n : String) (lo hi : ℚ) : Vars :=
  fun m =>
    if m = n then
      { vars m with
        min := lo
        max := if hi < lo then lo else hi
        val :=
          if inRange lo (if hi < lo then lo else hi) (vars m).val = true then (vars m).val
          else
            clipValue lo (if hi < lo then lo else hi)
              (clipValue lo (if hi < lo then lo else hi) (vars m).val) }
    else vars m

/-- Modelled from the spec: `utils::setAllConstant` is declared in a header that
is not among the sources; by the data model of the spec (a parameter set whose
members are "held constant" or floated together) it sets the constant flag of
every parameter of the set to `flag`. -/
def setAllConstant (set : List String) (flag : Bool) (vars : Vars) : Vars :=
  set.foldl (fun vs n => setConstant vs n flag) vars

/-- The method `RooArgSet::add`: a set holds a name at most once. -/
def RooArgSet.add (set : List String) (n : String) : List String :=
  if n ∈ set then set else set ++ [n]

/-! ## Preparing the model (lines 192-259) -/

/-- The loop that fixes nuisance parameters (lines 205-212): every nuisance
parameter selected by a comma-separated token of the `fixNP` string is made
constant. -/
def fixNuisanceParameters (env : Env) (mc : ModelConfig) (fixNPStr : String)
    (vars : Vars) : Vars :=
  (env.Tokenize fixNPStr ",").foldl
    (fun vs tok =>
      (mc.nuisanceParameters.filter (env.selectByName tok)).foldl
        (fun vs1 np => setConstant vs1 np true) vs)
    vars

/-- The state of the loop over the terms of the `poi` string: the parameters
and the set `fitPOIs`. -/
structure PoiState where
  vars : Vars
  fitPOIs : List String

/-- One iteration of the loop over the terms of the `poi` string (lines
221-248).  The result is `none` when the iteration does not complete:
`poiTerms[0]` or `poiVals[0]` of an empty vector, or `std::stof` throwing. -/
def preparePOI (env : Env) (ws : RooWorkspace) (st : PoiState) (poiStr : String) :
    Option PoiState :=
  match env.Tokenize poiStr "=" with
  | [] => none
  | poiName :: rest =>
    if !ws.hasVar poiName then some st
    else
      let fit := RooArgSet.add st.fitPOIs poiName
      match rest with
      | term1 :: _ =>
        let poiVals := env.Tokenize term1 "_"
        if poiVals.length = 3 then
          match env.stof (poiVals.getD 0 ""), env.stof (poiVals.getD 1 ""),
              env.stof (poiVals.getD 2 "") with
          | some v, some lo, some hi =>
            some ⟨setRange (setVal (setConstant st.vars poiName false) poiName v)
                    poiName lo hi, fit⟩
          | _, _, _ => none
        else
          match poiVals.head? with
          | none => none
          | some s0 =>
            match env.stof s0 with
            | none => none
            | some v => some ⟨setConstant (setVal st.vars poiName v) poiName true, fit⟩
      | [] => some ⟨setConstant st.vars poiName false, fit⟩

/-- The preparation of the parameters of interest (lines 216-257): the loop
over the comma-separated terms of the `poi` string when the option is given,
else the first parameter of interest of the model is floated.  The result is
`none` when a term does not complete or when the model has no first parameter
of interest to float. -/
def preparePOIs (env : Env) (ws : RooWorkspace) (mc : ModelConfig) (poiGiven : Bool)
    (poiStr : String) (vars : Vars) : Option PoiState :=
  if poiGiven then
    (env.Tokenize poiStr ",").foldlM (preparePOI env ws) ⟨vars, []⟩
  else
    match mc.parametersOfInterest.head? with
    | none => none
    | some firstPOI => some ⟨setConstant vars firstPOI false, RooArgSet.add [] firstPOI⟩

/-! ## The program -/

/-- How `main` ends: it returns a code, or the process is aborted. -/
inductive Exit where
  | returned (code : Int)
  | aborted
  deriving DecidableEq

/-- What a run of `main` leaves behind: how it ended, the calls made on the
engine in order, and the state of the parameters and the parameters of
interest of the model config at that point (`none` as long as no workspace,
respectively no model config, has been obtained).  On a run that calls
`runAsymptoticsCLs` these are the parameters and the POI set the engine is
handed. -/
structure Result where
  exit : Exit
  calls : List Call
  vars : Option Vars
  poi : Option (List String)

/-- The model "as expected" (lines 193-195): global observables constant,
nuisance parameters floating, parameters of interest constant, in this
order. -/
def prepareModel (mc : ModelConfig) (vars : Vars) : Vars :=
  setAllConstant mc.parametersOfInterest true
    (setAllConstant mc.nuisanceParameters false
      (setAllConstant mc.globalObservables true vars))

/-- The parameters when the preparation of the parameters of interest starts
(lines 193-213): the model as expected, with the nuisance parameters of the
`fixNP` option fixed when the option is given. -/
def modelVars (env : Env) (cl : CommandLine) (ws : RooWorkspace) (mc : ModelConfig) : Vars :=
  if cl.fixNP.isSome then
    fixNuisanceParameters env mc (notify cl).fixNPStr (prepareModel mc ws.vars)
  else prepareModel mc ws.vars

/-- The part of `main` after the lookups (lines 160-265): set the fit options,
prepare the model, check it, fix nuisance parameters, prepare the parameters
of interest, and run the engine.  The value of `checkModel` is printed and not
used otherwise. -/
def limitSetting (env : Env) (cl : CommandLine) (ws : RooWorkspace) (mc : ModelConfig) :
    Result :=
  let g := notify cl
  let _validModel := env.checkModel mc (prepareModel mc ws.vars)
  let calls := setFitOptions g ++ [Call.checkModel true]
  match preparePOIs env ws mc cl.poi.isSome g.poiStr (modelVars env cl ws mc) with
  | none => ⟨.aborted, calls, none, none⟩
  | some st =>
    ⟨.returned 1,
     calls ++ [Call.runAsymptoticsCLs g.snapshot "limits" "results" 0.95 g.outputFile],
     some st.vars, some st.fitPOIs⟩

/-- The function `main` of `quickCLs.cxx`. -/
def main (env : Env) (cl : CommandLine) : Result :=
  match cl.parse with
  | .stdException => ⟨.returned 999, [], none, none⟩
  | .otherException => ⟨.returned 1000, [], none, none⟩
  | .ok =>
    if !cl.inputFile.isSome || cl.help then ⟨.returned 0, [], none, none⟩
    else
      match env.openFile (notify cl).inputFile with
      | none => ⟨.returned 0, [], none, none⟩
      | some tf =>
        match tf.get (notify cl).wsName with
        | none => ⟨.returned 0, [], none, none⟩
        | some ws =>
          match ws.obj (notify cl).mcName with
          | none => ⟨.returned 0, [], some ws.vars, none⟩
          | some mc =>
            if !ws.hasData (notify cl).dataName then
              ⟨.returned 0, [], some ws.vars, some mc.parametersOfInterest⟩
            else limitSetting env cl ws mc

/-- Whether a call is the call of `runAsymptoticsCLs`. -/
def Call.isRun : Call → Bool
  | .runAsymptoticsCLs _ _ _ _ _ => true
  | _ => false

/-- The run reaches the engine: `runAsymptoticsCLs` is among the calls made. -/
def Result.callsEngine (r : Result) : Bool :=
  r.calls.any Call.isRun

/-- The inputs are resolved: option parsing succeeded, `inputFile` was given,
help was not requested, the file opened, and the workspace, the model config
and the dataset were found.  The value is the workspace and the model
config. -/
def resolve (env : Env) (cl : CommandLine) : Option (RooWorkspace × ModelConfig) :=
  if cl.parse = .ok ∧ cl.inputFile.isSome = true ∧ cl.help = false then
    match env.openFile (notify cl).inputFile with
    | none => none
    | some tf =>
      match tf.get (notify cl).wsName with
      | none => none
      | some ws =>
        match ws.obj (notify cl).mcName with
        | none => none
        | some mc => if ws.hasData (notify cl).dataName then some (ws, mc) else none
  else none

/-! ## A concrete environment

`Env` is instantiated at concrete inputs with the tokenizer below, a small
`stof`, exact-name selection and one input file. -/

/-- The maximal runs of characters of `s` that are not in `delims`; `cur` is
the run being read, in reverse. -/
def tokenizeChars (delims : List Char) : List Char → List Char → List (List Char)
  | cur, [] => if cur = [] then [] else [cur.reverse]
  | cur, c :: cs =>
    if c ∈ delims then
      if cur = [] then tokenizeChars delims [] cs
      else cur.reverse :: tokenizeChars delims [] cs
    else tokenizeChars delims (c :: cur) cs

/-- A tokenizer in the manner of `auxUtils::Tokenize`: the non-empty pieces of
`s` between delimiter characters. -/
def sampleTokenize (s delims : String) : List String :=
  (tokenizeChars delims.toList [] s.toList).map String.mk

/-- A `stof` that knows a few numerals and throws on everything else. -/
def sampleStof (s : String) : Option ℚ :=
  if s = "0" then some 0
  else if s = "1" then some 1
  else if s = "2" then some 2
  else if s = "5" then some 5
  else if s = "20" then some 20
  else if s = "50" then some 50
  else none

/-- The parameters of the sample workspace: all at value 1 in the range
[-10, 10], floating, except that `gobs` starts constant. -/
def sampleVars : Vars := fun n => ⟨1, -10, 10, n = "gobs"⟩

/-- The sample model config: one global observable, two nuisance parameters
and two parameters of interest. -/
def sampleModel : ModelConfig := ⟨["gobs"], ["alpha", "beta"], ["mu", "mu2"]⟩

/-- A model config in which the parameter `mu2` is both a nuisance parameter and
a parameter of interest. -/
def overlapModel : ModelConfig := ⟨["gobs"], ["alpha", "mu2"], ["mu", "mu2"]⟩

/-- The sample workspace, holding `sampleModel` as `ModelConfig`,
`overlapModel` as `OverlapConfig`, and a dataset `combData`. -/
def sampleWorkspace : RooWorkspace where
  hasVar := fun n => n ∈ ["gobs", "alpha", "beta", "mu", "mu2"]
  vars := sampleVars
  obj := fun n =>
    if n = "ModelConfig" then some sampleModel
    else if n = "OverlapConfig" then some overlapModel
    else none
  hasData := fun n => n = "combData"

/-- The sample environment: the file `in.root` holds `sampleWorkspace` as
`combWS`; the model passes or fails `checkModel` as `valid` says. -/
def sampleEnv (valid : Bool) : Env where
  openFile := fun f =>
    if f = "in.root" then some ⟨fun n => if n = "combWS" then some sampleWorkspace else none⟩
    else none
  Tokenize := sampleTokenize
  stof := sampleStof
  selectByName := fun pat n => pat = n
  checkModel := fun _ _ => valid

/-- The command line `quickCLs -f in.root`: only `inputFile` is given. -/
def sampleCommandLine : CommandLine where
  parse := .ok
  inputFile := some "in.root"
  outputFile := none
  dataName := none
  wsName := none
  mcName := none
  snapshot := none
  poi := none
  fixNP := none
  betterBands := none
  betterNegBands := none
  setNegAtZero := none
  minStrat := none
  printLevel := none
  maxRetries := none
  precision := none
  verbose := none
  nllOffset := none
  optConst := none
  doExp := none
  doObs := none
  doBlind := none
  doTilde := none
  killBelowFatal := none
  usePredFit := none
  condExp := none
  help := false

/-- The name of a term of the `poi` string: `poiTerms[0]`, when there is
one. -/
def poiName (env : Env) (poiStr : String) : Option String :=
  (env.Tokenize poiStr "=").head?

/-- Whether the `fixNP` string selects the parameter `n`: one of its
comma-separated tokens selects `n` among the nuisance parameters. -/
def fixSelects (env : Env) (mc : ModelConfig) (fixNPStr : String) (n : String) : Bool :=
  (env.Tokenize fixNPStr ",").any
    (fun tok => decide (n ∈ mc.nuisanceParameters.filter (env.selectByName tok)))

/-- The command line `cl` with the two negative-band options replaced. -/
def withNegBands (cl : CommandLine) (betterNegBands setNegAtZero : Option Bool) :
    CommandLine :=
  { cl with betterNegBands := betterNegBands, setNegAtZero := setNegAtZero }

theorem main_of_resolve {env : Env} {cl : CommandLine} {ws : RooWorkspace}
    {mc : ModelConfig} (h : resolve env cl = some (ws, mc)) :
    main env cl = limitSetting env cl ws mc := by
  unfold resolve at h
  unfold main
  split_ifs at h with hc
  obtain ⟨hp, hi, hh⟩ := hc
  rw [hp]
  simp only [hi, hh, Bool.not_true, Bool.or_self, Bool.false_eq_true, if_false]
  cases hf : env.openFile (notify cl).inputFile with
  | none => simp [hf] at h
  | some tf =>
    simp only [hf] at h ⊢
    cases hw : tf.get (notify cl).wsName with
    | none => simp [hw] at h
    | some ws1 =>
      simp only [hw] at h ⊢
      cases hm : ws1.obj (notify cl).mcName with
      | none => simp [hm] at h
      | some mc1 =>
        simp only [hm] at h ⊢
        cases hd : ws1.hasData (notify cl).dataName with
        | false => simp [hd] at h
        | true =>
          simp only [hd, if_true, Option.some.injEq, Prod.mk.injEq] at h
          obtain ⟨rfl, rfl⟩ := h
          simp

theorem main_of_not_resolve {env : Env} {cl : CommandLine} (h : resolve env cl = none) :
    (main env cl).calls = [] ∧
      ((main env cl).exit = .returned 999 ∨ (main env cl).exit = .returned 1000 ∨
        (main env cl).exit = .returned 0) := by
  unfold resolve at h
  unfold main
  cases hp : cl.parse with
  | stdException => simp
  | otherException => simp
  | ok =>
    simp only [hp, true_and] at h ⊢
    cases hi : cl.inputFile.isSome <;> cases hh : cl.help <;>
      simp only [hi, hh, Bool.not_true, Bool.not_false, Bool.or_self, Bool.or_true,
        Bool.or_false, Bool.false_eq_true, if_false, if_true, and_self, and_true,
        and_false, true_and] at h ⊢ <;> try simp
    cases hf : env.openFile (notify cl).inputFile with
    | none => simp
    | some tf =>
      simp only [hf] at h ⊢
      cases hw : tf.get (notify cl).wsName with
      | none => simp
      | some ws1 =>
        simp only [hw] at h ⊢
        cases hm : ws1.obj (notify cl).mcName with
        | none => simp
        | some mc1 =>
          simp only [hm] at h ⊢
          cases hd : ws1.hasData (notify cl).dataName with
          | false => simp
          | true => simp [hd] at h

theorem limitSetting_of_some {env : Env} {cl : CommandLine} {ws : RooWorkspace}
    {mc : ModelConfig} {st : PoiState}
    (h : preparePOIs env ws mc cl.poi.isSome (notify cl).poiStr (modelVars env cl ws mc)
      = some st) :
    limitSetting env cl ws mc =
      ⟨.returned 1,
       (setFitOptions (notify cl) ++ [Call.checkModel true]) ++
         [Call.runAsymptoticsCLs (notify cl).snapshot "limits" "results" 0.95
            (notify cl).outputFile],
       some st.vars, some st.fitPOIs⟩ := by
  simp only [limitSetting, h]

theorem limitSetting_of_none {env : Env} {cl : CommandLine} {ws : RooWorkspace}
    {mc : ModelConfig}
    (h : preparePOIs env ws mc cl.poi.isSome (notify cl).poiStr (modelVars env cl ws mc)
      = none) :
    limitSetting env cl ws mc =
      ⟨.aborted, setFitOptions (notify cl) ++ [Call.checkModel true], none, none⟩ := by
  simp only [limitSetting, h]

/-- Every call `main` makes is one of the fit options, the model check, or the
call of the engine with the fixed names and target. -/
theorem mem_calls {env : Env} {cl : CommandLine} {c : Call} (h : c ∈ (main env cl).calls) :
    c ∈ setFitOptions (notify cl) ∨ c = Call.checkModel true ∨
      c = Call.runAsymptoticsCLs (notify cl).snapshot "limits" "results" 0.95
            (notify cl).outputFile := by
  cases hr : resolve env cl with
  | none => rw [(main_of_not_resolve hr).1] at h; simp at h
  | some p =>
    obtain ⟨ws, mc⟩ := p
    rw [main_of_resolve hr] at h
    cases hp : preparePOIs env ws mc cl.poi.isSome (notify cl).poiStr (modelVars env cl ws mc) with
    | none =>
      rw [limitSetting_of_none hp] at h
      simp only [List.mem_append, List.mem_singleton] at h
      tauto
    | some st =>
      rw [limitSetting_of_some hp] at h
      simp only [List.mem_append, List.mem_singleton] at h
      tauto

/-- On resolved inputs every fit option is set. -/
theorem setFitOptions_subset {env : Env} {cl : CommandLine} {p : RooWorkspace × ModelConfig}
    (hr : resolve env cl = some p) {c : Call} (hc : c ∈ setFitOptions (notify cl)) :
    c ∈ (main env cl).calls := by
  obtain ⟨ws, mc⟩ := p
  rw [main_of_resolve hr]
  cases hp : preparePOIs env ws mc cl.poi.isSome (notify cl).poiStr (modelVars env cl ws mc) with
  | none =>
    rw [limitSetting_of_none hp]
    simp only [List.mem_append, List.mem_singleton]
    tauto
  | some st =>
    rw [limitSetting_of_some hp]
    simp only [List.mem_append, List.mem_singleton]
    tauto

/-- The engine is called exactly when the inputs resolve and the preparation of
the parameters of interest completes. -/
theorem callsEngine_iff (env : Env) (cl : CommandLine) :
    (main env cl).callsEngine = true ↔
      ∃ ws mc, resolve env cl = some (ws, mc) ∧
        (preparePOIs env ws mc cl.poi.isSome (notify cl).poiStr
          (modelVars env cl ws mc)).isSome = true := by
  cases hr : resolve env cl with
  | none => simp [Result.callsEngine, (main_of_not_resolve hr).1]
  | some p =>
    obtain ⟨ws, mc⟩ := p
    rw [main_of_resolve hr]
    cases hp : preparePOIs env ws mc cl.poi.isSome (notify cl).poiStr (modelVars env cl ws mc) with
    | none =>
      rw [limitSetting_of_none hp]
      simp [Result.callsEngine, setFitOptions, Call.isRun, hp]
    | some st =>
      rw [limitSetting_of_some hp]
      constructor
      · intro _
        exact ⟨ws, mc, rfl, by rw [hp]; rfl⟩
      · intro _
        simp [Result.callsEngine, Call.isRun]

/-! ## Blinding and the data-dependent modes -/

/-- C1: when `doBlind` is true (given as true, or left at its default), every
value `main` passes to `setDoObserved` and to `setCondExpected` is `false`,
whatever `doObs` and `condExp` are; and on resolved inputs both calls are
made. -/
theorem blind_disables_observed (env : Env) (cl : CommandLine)
    (hblind : (notify cl).doBlind = true) :
    (∀ b, Call.setDoObserved b ∈ (main env cl).calls → b = false) ∧
    (∀ b, Call.setCondExpected b ∈ (main env cl).calls → b = false) ∧
    ((resolve env cl).isSome = true →
      Call.setDoObserved false ∈ (main env cl).calls ∧
      Call.setCondExpected false ∈ (main env cl).calls) := by
  refine ⟨?_, ?_, ?_⟩
  · intro b hb
    rcases mem_calls hb with h | h | h
    · simpa [setFitOptions, hblind] using h
    · cases h
    · cases h
  · intro b hb
    rcases mem_calls hb with h | h | h
    · simpa [setFitOptions, hblind] using h
    · cases h
    · cases h
  · intro hr
    obtain ⟨p, hp⟩ := Option.isSome_iff_exists.1 hr
    constructor <;> apply setFitOptions_subset hp <;> simp [setFitOptions, hblind]

/-- C1, at `quickCLs -f in.root --doObs 1 --condExp 1 --doBlind 1`. -/
theorem blind_disables_observed_witness :
    Call.setDoObserved false ∈
        (main (sampleEnv true)
          { sampleCommandLine with
            doObs := some true, condExp := some true, doBlind := some true }).calls ∧
    Call.setCondExpected false ∈
        (main (sampleEnv true)
          { sampleCommandLine with
            doObs := some true, condExp := some true, doBlind := some true }).calls :=
  (blind_disables_observed (sampleEnv true)
    { sampleCommandLine with doObs := some true, condExp := some true, doBlind := some true }
    (by decide)).2.2 (by decide)

/-- C9: the value passed to `setDoObserved` is the value of the `doObs` option
and not the value of the `doBlind` option, where `doObs` left out counts as
`false` (the default is computed once from the initial `_doBlind = true`) and
`doBlind` left out counts as `true`; the same holds of `condExp` and
`setCondExpected`.  So with `doBlind` given as `false` and `doObs`
(respectively `condExp`) left out the value passed is still `false`.  On
resolved inputs both calls are made. -/
theorem observed_iff_asked_and_unblinded (env : Env) (cl : CommandLine) :
    _doObs = false ∧ _conditionalExpected = false ∧
    (∀ b, Call.setDoObserved b ∈ (main env cl).calls →
      b = (cl.doObs.getD false && !cl.doBlind.getD true)) ∧
    (∀ b, Call.setCondExpected b ∈ (main env cl).calls →
      b = (cl.condExp.getD false && !cl.doBlind.getD true)) ∧
    ((resolve env cl).isSome = true →
      Call.setDoObserved (cl.doObs.getD false && !cl.doBlind.getD true)
        ∈ (main env cl).calls ∧
      Call.setCondExpected (cl.condExp.getD false && !cl.doBlind.getD true)
        ∈ (main env cl).calls) ∧
    (cl.doBlind = some false → cl.doObs = none →
      ∀ b, Call.setDoObserved b ∈ (main env cl).calls → b = false) ∧
    (cl.doBlind = some false → cl.condExp = none →
      ∀ b, Call.setCondExpected b ∈ (main env cl).calls → b = false) := by
  have hobs : ∀ b, Call.setDoObserved b ∈ (main env cl).calls →
      b = (cl.doObs.getD false && !cl.doBlind.getD true) := by
    intro b hb
    rcases mem_calls hb with h | h | h
    · simpa [setFitOptions, notify, _doObs, _doBlind] using h
    · cases h
    · cases h
  have hcond : ∀ b, Call.setCondExpected b ∈ (main env cl).calls →
      b = (cl.condExp.getD false && !cl.doBlind.getD true) := by
    intro b hb
    rcases mem_calls hb with h | h | h
    · simpa [setFitOptions, notify, _conditionalExpected, _doBlind] using h
    · cases h
    · cases h
  refine ⟨rfl, rfl, hobs, hcond, ?_, ?_, ?_⟩
  · intro hr
    obtain ⟨p, hp⟩ := Option.isSome_iff_exists.1 hr
    constructor <;> apply setFitOptions_subset hp <;>
      simp [setFitOptions, notify, _doObs, _conditionalExpected, _doBlind]
  · intro h1 h2 b hb
    simpa [h1, h2] using hobs b hb
  · intro h1 h2 b hb
    simpa [h1, h2] using hcond b hb

/-- C9, at `quickCLs -f in.root --doBlind 0`: the inputs resolve and `doObs`
and `condExp` are left out. -/
theorem observed_iff_asked_and_unblinded_witness :
    Call.setDoObserved false ∈
        (main (sampleEnv true) { sampleCommandLine with doBlind := some false }).calls ∧
    Call.setCondExpected false ∈
        (main (sampleEnv true) { sampleCommandLine with doBlind := some false }).calls :=
  (observed_iff_asked_and_unblinded (sampleEnv true)
    { sampleCommandLine with doBlind := some false }).2.2.2.2.1 (by decide)

/-! ## The negative-band options -/

theorem main_withNegBands_of_not_resolve {env : Env} {cl : CommandLine}
    (h : resolve env cl = none) (b1 b2 : Option Bool) :
    main env (withNegBands cl b1 b2) = main env cl := by
  unfold resolve at h
  cases hp : cl.parse with
  | stdException => simp [main, withNegBands, hp]
  | otherException => simp [main, withNegBands, hp]
  | ok =>
    cases hi : cl.inputFile.isSome <;> cases hh : cl.help <;>
      try (simp [main, withNegBands, hp, hi, hh]; done)
    simp only [hp, hi, hh, and_self, if_true] at h
    have e1 : (notify (withNegBands cl b1 b2)).inputFile = (notify cl).inputFile := rfl
    have e2 : (notify (withNegBands cl b1 b2)).wsName = (notify cl).wsName := rfl
    have e3 : (notify (withNegBands cl b1 b2)).mcName = (notify cl).mcName := rfl
    have e4 : (notify (withNegBands cl b1 b2)).dataName = (notify cl).dataName := rfl
    have e5 : (withNegBands cl b1 b2).parse = cl.parse := rfl
    have e6 : (withNegBands cl b1 b2).inputFile = cl.inputFile := rfl
    have e7 : (withNegBands cl b1 b2).help = cl.help := rfl
    unfold main
    rw [e1, e2, e3, e4, e5, e6, e7]
    simp only [hp, hi, hh]
    cases hf : env.openFile (notify cl).inputFile with
    | none => simp
    | some tf =>
      simp only [hf] at h ⊢
      cases hw : tf.get (notify cl).wsName with
      | none => simp
      | some ws1 =>
        simp only [hw] at h ⊢
        cases hm : ws1.obj (notify cl).mcName with
        | none => simp
        | some mc1 =>
          simp only [hm] at h ⊢
          cases hd : ws1.hasData (notify cl).dataName with
          | false => simp
          | true => simp [hd] at h

/-- C5, at `quickCLs -f in.root --betterNegBands 1 --setNegAtZero 0`: the value
of `betterNegBands` goes to `setProfileNegAtZero` and the value of
`setNegAtZero` goes to `setBetterNegativeBands`; `setBetterNegativeBands` is
never called with the value of `betterNegBands`, nor `setProfileNegAtZero` with
the value of `setNegAtZero`. -/
theorem negative_band_setters_crossed :
    Call.setProfileNegAtZero true ∈
      (main (sampleEnv true) (withNegBands sampleCommandLine (some true) (some false))).calls ∧
    Call.setBetterNegativeBands false ∈
      (main (sampleEnv true) (withNegBands sampleCommandLine (some true) (some false))).calls ∧
    Call.setBetterNegativeBands true ∉
      (main (sampleEnv true) (withNegBands sampleCommandLine (some true) (some false))).calls ∧
    Call.setProfileNegAtZero false ∉
      (main (sampleEnv true) (withNegBands sampleCommandLine (some true) (some false))).calls := by
  decide

/-- C2 fails at `quickCLs -f in.root --betterNegBands 1 --setNegAtZero 1`: both
options are true, and `main` calls `runAsymptoticsCLs` and returns 1. -/
theorem both_negative_bands_runs :
    (withNegBands sampleCommandLine (some true) (some true)).betterNegBands = some true ∧
    (withNegBands sampleCommandLine (some true) (some true)).setNegAtZero = some true ∧
    (main (sampleEnv true)
      (withNegBands sampleCommandLine (some true) (some true))).callsEngine = true ∧
    (main (sampleEnv true)
      (withNegBands sampleCommandLine (some true) (some true))).exit = .returned 1 := by
  decide

/-- C2, amended: `main` does not check the two negative-band options against
each other.  How it ends, whether it calls `runAsymptoticsCLs`, and the
parameters and POI set it leaves are the same for every pair of values of
`betterNegBands` and `setNegAtZero`, both true included. -/
theorem negative_bands_not_checked (env : Env) (cl : CommandLine) (b1 b2 : Option Bool) :
    (main env (withNegBands cl b1 b2)).exit = (main env cl).exit ∧
    (main env (withNegBands cl b1 b2)).callsEngine = (main env cl).callsEngine ∧
    (main env (withNegBands cl b1 b2)).vars = (main env cl).vars ∧
    (main env (withNegBands cl b1 b2)).poi = (main env cl).poi := by
  have hres : resolve env (withNegBands cl b1 b2) = resolve env cl := rfl
  cases hr : resolve env cl with
  | none =>
    rw [main_withNegBands_of_not_resolve hr]
    exact ⟨rfl, rfl, rfl, rfl⟩
  | some p =>
    obtain ⟨ws, mc⟩ := p
    rw [main_of_resolve hr, main_of_resolve (hres.trans hr)]
    have hprep : preparePOIs env ws mc (withNegBands cl b1 b2).poi.isSome
        (notify (withNegBands cl b1 b2)).poiStr (modelVars env (withNegBands cl b1 b2) ws mc)
        = preparePOIs env ws mc cl.poi.isSome (notify cl).poiStr (modelVars env cl ws mc) := rfl
    cases hp : preparePOIs env ws mc cl.poi.isSome (notify cl).poiStr (modelVars env cl ws mc) with
    | none =>
      rw [limitSetting_of_none hp, limitSetting_of_none (hprep.trans hp)]
      simp [Result.callsEngine, setFitOptions, Call.isRun]
    | some st =>
      rw [limitSetting_of_some hp, limitSetting_of_some (hprep.trans hp)]
      simp [Result.callsEngine, Call.isRun]

/-! ## Target and precision -/

/-- C7: on a run that reaches the engine, `runAsymptoticsCLs` is called with
the target confidence level 0.95 and with no other, and `setPrecision` is
called with the value of the `precision` option, 0.005 when the option is not
given, and with no other. -/
theorem default_target_and_precision (env : Env) (cl : CommandLine)
    (h : (main env cl).callsEngine = true) :
    Call.runAsymptoticsCLs (notify cl).snapshot "limits" "results" 0.95
        (notify cl).outputFile ∈ (main env cl).calls ∧
    (∀ s l r c o, Call.runAsymptoticsCLs s l r c o ∈ (main env cl).calls → c = 0.95) ∧
    Call.setPrecision (cl.precision.getD 0.005) ∈ (main env cl).calls ∧
    (∀ p, Call.setPrecision p ∈ (main env cl).calls → p = cl.precision.getD 0.005) := by
  obtain ⟨ws, mc, hr, hp⟩ := (callsEngine_iff env cl).1 h
  obtain ⟨st, hst⟩ := Option.isSome_iff_exists.1 hp
  refine ⟨?_, ?_, ?_, ?_⟩
  · rw [main_of_resolve hr, limitSetting_of_some hst]
    simp
  · intro s l r c o hc
    rcases mem_calls hc with h1 | h1 | h1
    · simp [setFitOptions] at h1
    · cases h1
    · cases h1; rfl
  · apply setFitOptions_subset hr
    simp [setFitOptions, notify, _precision]
  · intro p hc
    rcases mem_calls hc with h1 | h1 | h1
    · simpa [setFitOptions, notify, _precision] using h1
    · cases h1
    · cases h1

/-- C7, at `quickCLs -f in.root`: the run reaches the engine, with target 0.95
and precision 0.005. -/
theorem default_target_and_precision_witness :
    Call.runAsymptoticsCLs "" "limits" "results" 0.95 ""
        ∈ (main (sampleEnv true) sampleCommandLine).calls ∧
    Call.setPrecision 0.005 ∈ (main (sampleEnv true) sampleCommandLine).calls :=
  ⟨(default_target_and_precision (sampleEnv true) sampleCommandLine (by decide)).1,
   (default_target_and_precision (sampleEnv true) sampleCommandLine (by decide)).2.2.1⟩

/-! ## The model check -/

theorem setAllConstant_apply (set : List String) (flag : Bool) (vars : Vars) (n : String) :
    setAllConstant set flag vars n =
      if n ∈ set then { vars n with isConstant := flag } else vars n := by
  induction set generalizing vars with
  | nil => simp [setAllConstant]
  | cons a l ih =>
    have step : setAllConstant (a :: l) flag vars
        = setAllConstant l flag (setConstant vars a flag) := rfl
    rw [step, ih]
    by_cases hna : n = a
    · subst hna
      by_cases hl : n ∈ l <;> simp [hl, setConstant]
    · by_cases hl : n ∈ l <;> simp [hl, hna, setConstant]

theorem fixNuisanceParameters_apply (env : Env) (mc : ModelConfig) (fixNPStr : String)
    (vars : Vars) (n : String) :
    fixNuisanceParameters env mc fixNPStr vars n =
      if fixSelects env mc fixNPStr n = true then { vars n with isConstant := true }
      else vars n := by
  unfold fixNuisanceParameters fixSelects
  generalize env.Tokenize fixNPStr "," = toks
  induction toks generalizing vars with
  | nil => simp
  | cons tok rest ih =>
    rw [List.foldl_cons, ih]
    have inner : ∀ vs : Vars,
        (mc.nuisanceParameters.filter (env.selectByName tok)).foldl
          (fun vs1 np => setConstant vs1 np true) vs
        = setAllConstant (mc.nuisanceParameters.filter (env.selectByName tok)) true vs :=
      fun _ => rfl
    rw [inner, setAllConstant_apply]
    rw [List.any_cons]
    cases h2 : (rest.any fun tok1 =>
        decide (n ∈ mc.nuisanceParameters.filter (env.selectByName tok1))) <;>
      by_cases h1 : n ∈ mc.nuisanceParameters.filter (env.selectByName tok) <;>
      simp only [h1, decide_True, decide_False, Bool.true_or, Bool.or_true,
        Bool.false_or, Bool.or_false, if_true, if_false, Bool.false_eq_true]

/-- The model as expected, at a global observable that is not a nuisance
parameter: constant. -/
theorem prepareModel_globalObservable {mc : ModelConfig} (vars : Vars) {n : String}
    (hn : n ∈ mc.globalObservables) (hnp : n ∉ mc.nuisanceParameters) :
    (prepareModel mc vars n).isConstant = true := by
  unfold prepareModel
  rw [setAllConstant_apply]
  by_cases h : n ∈ mc.parametersOfInterest
  · simp [h]
  · simp [h, setAllConstant_apply, hnp, hn]

/-- The model as expected, at a parameter of interest: constant. -/
theorem prepareModel_poi {mc : ModelConfig} (vars : Vars) {n : String}
    (hn : n ∈ mc.parametersOfInterest) :
    (prepareModel mc vars n).isConstant = true := by
  unfold prepareModel
  rw [setAllConstant_apply]
  simp [hn]

/-- The model as expected, at a nuisance parameter that is not a parameter of
interest: floating. -/
theorem prepareModel_nuisance {mc : ModelConfig} (vars : Vars) {n : String}
    (hn : n ∈ mc.nuisanceParameters) (hpoi : n ∉ mc.parametersOfInterest) :
    (prepareModel mc vars n).isConstant = false := by
  unfold prepareModel
  rw [setAllConstant_apply]
  simp [hpoi, setAllConstant_apply, hn]

/-- Fixing nuisance parameters keeps constant parameters constant. -/
theorem modelVars_constant {env : Env} {cl : CommandLine} {ws : RooWorkspace}
    {mc : ModelConfig} {n : String} (h : (prepareModel mc ws.vars n).isConstant = true) :
    (modelVars env cl ws mc n).isConstant = true := by
  unfold modelVars
  split_ifs
  · rw [fixNuisanceParameters_apply]
    split_ifs
    · rfl
    · exact h
  · exact h

/-- Fixing nuisance parameters leaves the parameters it does not select as they
are. -/
theorem modelVars_not_selected {env : Env} {cl : CommandLine} {ws : RooWorkspace}
    {mc : ModelConfig} {n : String}
    (h : ¬ (cl.fixNP.isSome = true ∧ fixSelects env mc (notify cl).fixNPStr n = true)) :
    modelVars env cl ws mc n = prepareModel mc ws.vars n := by
  unfold modelVars
  split_ifs with h1
  · rw [fixNuisanceParameters_apply]
    split_ifs with h2
    · exact absurd ⟨h1, h2⟩ h
    · rfl
  · rfl

/-! ## One term of the `poi` string -/

/-- A term that completes has a name and changes no parameter but the one it
names. -/
theorem preparePOI_other {env : Env} {ws : RooWorkspace} {st st1 : PoiState} {t : String}
    (h : preparePOI env ws st t = some st1) {n : String} (hn : poiName env t ≠ some n) :
    st1.vars n = st.vars n := by
  unfold poiName at hn
  unfold preparePOI at h
  cases ht : env.Tokenize t "=" with
  | nil => simp [ht] at h
  | cons name rest =>
    have hne : n ≠ name := by
      intro e
      apply hn
      simp [ht, e]
    simp only [ht] at h
    cases hv : ws.hasVar name with
    | false =>
      simp [hv] at h
      rw [← h]
    | true =>
      simp only [hv, Bool.not_true, Bool.false_eq_true, if_false] at h
      cases rest with
      | nil =>
        simp only [Option.some.injEq] at h
        rw [← h]
        simp [setConstant, hne]
      | cons term1 more =>
        simp only at h
        split_ifs at h with hlen
        · split at h
          · simp only [Option.some.injEq] at h
            rw [← h]
            simp [setRange, setVal, setConstant, hne]
          · cases h
        · split at h
          · cases h
          · split at h
            · cases h
            · simp only [Option.some.injEq] at h
              rw [← h]
              simp [setVal, setConstant, hne]

/-- The loop over the terms changes no parameter that no term names. -/
theorem foldlM_preparePOI_other {env : Env} {ws : RooWorkspace} {n : String}
    (terms : List String) {st st1 : PoiState}
    (h : terms.foldlM (preparePOI env ws) st = some st1)
    (hn : ∀ t ∈ terms, poiName env t ≠ some n) :
    st1.vars n = st.vars n := by
  induction terms generalizing st with
  | nil =>
    simp only [List.foldlM_nil, pure, Option.some.injEq] at h
    rw [← h]
  | cons t rest ih =>
    rw [List.foldlM_cons] at h
    cases hstep : preparePOI env ws st t with
    | none => simp [hstep, bind] at h
    | some st2 =>
      simp only [hstep, bind, Option.bind] at h
      rw [ih h (fun u hu => hn u (List.mem_cons_of_mem _ hu)),
        preparePOI_other hstep (hn t (List.mem_cons_self _ _))]

/-! ## The constant flags handed to the engine -/

/-- C4 fails at `quickCLs -f in.root -p gobs`: `gobs` is a global observable of
the model, `main` calls `runAsymptoticsCLs`, and `gobs` is floating then. -/
theorem global_observable_floated :
    "gobs" ∈ sampleModel.globalObservables ∧
    (main (sampleEnv true) { sampleCommandLine with poi := some "gobs" }).callsEngine = true ∧
    (main (sampleEnv true) { sampleCommandLine with poi := some "gobs" }).vars.map
      (fun vars => (vars "gobs").isConstant) = some false := by
  decide

/-- C4, amended: for a model whose global observables are neither nuisance
parameters nor parameters of interest, and a command line whose `poi` option
(when given) names no global observable in any of its terms, every global
observable is constant when `main` calls `runAsymptoticsCLs`, whatever the
`fixNP` option. -/
theorem global_observables_constant (env : Env) (cl : CommandLine) (ws : RooWorkspace)
    (mc : ModelConfig) (hr : resolve env cl = some (ws, mc))
    (hnp : ∀ n ∈ mc.globalObservables, n ∉ mc.nuisanceParameters)
    (hpoi : ∀ n ∈ mc.globalObservables, n ∉ mc.parametersOfInterest)
    (hterms : ∀ s, cl.poi = some s → ∀ t ∈ env.Tokenize s ",",
      ∀ n ∈ mc.globalObservables, poiName env t ≠ some n)
    (hcall : (main env cl).callsEngine = true) :
    ∃ vars, (main env cl).vars = some vars ∧
      ∀ n ∈ mc.globalObservables, (vars n).isConstant = true := by
  obtain ⟨ws1, mc1, hr1, hp⟩ := (callsEngine_iff env cl).1 hcall
  rw [hr] at hr1
  simp only [Option.some.injEq, Prod.mk.injEq] at hr1
  obtain ⟨rfl, rfl⟩ := hr1
  obtain ⟨st, hst⟩ := Option.isSome_iff_exists.1 hp
  refine ⟨st.vars, ?_, ?_⟩
  · rw [main_of_resolve hr, limitSetting_of_some hst]
  · intro n hn
    have hmodel : (modelVars env cl ws mc n).isConstant = true :=
      modelVars_constant (prepareModel_globalObservable ws.vars hn (hnp n hn))
    have hsame : st.vars n = modelVars env cl ws mc n := by
      unfold preparePOIs at hst
      cases hcl : cl.poi with
      | none =>
        simp only [hcl, Option.isSome_none, Bool.false_eq_true, if_false] at hst
        cases hhead : mc.parametersOfInterest.head? with
        | none => simp [hhead] at hst
        | some firstPOI =>
          simp only [hhead, Option.some.injEq] at hst
          have hmem : firstPOI ∈ mc.parametersOfInterest := List.mem_of_mem_head? hhead
          have hne : n ≠ firstPOI := fun e => hpoi n hn (e ▸ hmem)
          rw [← hst]
          simp [setConstant, hne]
      | some s =>
        simp only [hcl, Option.isSome_some, if_true] at hst
        have hstr : (notify cl).poiStr = s := by simp [notify, hcl]
        rw [hstr] at hst
        exact foldlM_preparePOI_other _ hst (fun t ht => hterms s hcl t ht n hn)
    rw [hsame]
    exact hmodel

/-- C4 amended, at `quickCLs -f in.root -p mu=1_0_5 -n alpha`. -/
theorem global_observables_constant_witness :
    ∃ vars,
      (main (sampleEnv true)
        { sampleCommandLine with poi := some "mu=1_0_5", fixNP := some "alpha" }).vars
        = some vars ∧
      ∀ n ∈ sampleModel.globalObservables, (vars n).isConstant = true :=
  global_observables_constant (sampleEnv true)
    { sampleCommandLine with poi := some "mu=1_0_5", fixNP := some "alpha" }
    sampleWorkspace sampleModel rfl (by decide) (by decide)
    (by
      intro s hs t ht n hn
      simp only [Option.some.injEq] at hs
      subst hs
      have ht1 : t = "mu=1_0_5" := by
        have : (sampleEnv true).Tokenize "mu=1_0_5" "," = ["mu=1_0_5"] := by decide
        rw [this] at ht
        simpa using ht
      have hn1 : n = "gobs" := by simpa [sampleModel] using hn
      subst ht1 hn1
      decide)
    (by decide)

/-- C6 fails at `quickCLs -f in.root -m OverlapConfig`, without `poi` and
`fixNP`, on a model whose POI set `mu`, `mu2` is non-empty and whose parameter
`mu2` is also a nuisance parameter: `main` calls `runAsymptoticsCLs`, and the
nuisance parameter `mu2`, which `fixNP` does not select, is constant then. -/
theorem shared_nuisance_parameter_constant :
    (resolve (sampleEnv true)
      { sampleCommandLine with mcName := some "OverlapConfig" }).map (fun p => p.2)
      = some overlapModel ∧
    overlapModel.parametersOfInterest = ["mu", "mu2"] ∧
    "mu2" ∈ overlapModel.nuisanceParameters ∧
    ({ sampleCommandLine with mcName := some "OverlapConfig" } : CommandLine).poi = none ∧
    ({ sampleCommandLine with mcName := some "OverlapConfig" } : CommandLine).fixNP = none ∧
    (main (sampleEnv true)
      { sampleCommandLine with mcName := some "OverlapConfig" }).callsEngine = true ∧
    (main (sampleEnv true)
      { sampleCommandLine with mcName := some "OverlapConfig" }).vars.map
      (fun vars => (vars "mu2").isConstant) = some true := by
  decide

/-- C6, amended: on resolved inputs, without the `poi` option and with a model
whose POI set is non-empty and none of whose nuisance parameters is a
parameter of interest, `main` calls `runAsymptoticsCLs` and returns 1, and at
the call the first POI is floating, every other POI is constant, every
nuisance parameter that `fixNP` does not select is floating, and the POI set
of the model config is the one-element set of the first POI. -/
theorem default_floats_first_poi (env : Env) (cl : CommandLine) (ws : RooWorkspace)
    (mc : ModelConfig) (firstPOI : String) (others : List String)
    (hr : resolve env cl = some (ws, mc)) (hno : cl.poi = none)
    (hfirst : mc.parametersOfInterest = firstPOI :: others)
    (hdisj : ∀ n ∈ mc.nuisanceParameters, n ∉ mc.parametersOfInterest) :
    (main env cl).callsEngine = true ∧
    (main env cl).exit = .returned 1 ∧
    (main env cl).poi = some [firstPOI] ∧
    ∃ vars, (main env cl).vars = some vars ∧
      (vars firstPOI).isConstant = false ∧
      (∀ q ∈ mc.parametersOfInterest, q ≠ firstPOI → (vars q).isConstant = true) ∧
      (∀ n ∈ mc.nuisanceParameters,
        ¬ (cl.fixNP.isSome = true ∧ fixSelects env mc (notify cl).fixNPStr n = true) →
        (vars n).isConstant = false) := by
  have hst : preparePOIs env ws mc cl.poi.isSome (notify cl).poiStr (modelVars env cl ws mc)
      = some ⟨setConstant (modelVars env cl ws mc) firstPOI false, [firstPOI]⟩ := by
    simp [preparePOIs, hno, hfirst, RooArgSet.add]
  have hmain := main_of_resolve hr
  rw [limitSetting_of_some hst] at hmain
  refine ⟨?_, ?_, ?_, setConstant (modelVars env cl ws mc) firstPOI false, ?_, ?_, ?_, ?_⟩
  · exact (callsEngine_iff env cl).2 ⟨ws, mc, hr, by rw [hst]; rfl⟩
  · rw [hmain]
  · rw [hmain]
  · rw [hmain]
  · simp [setConstant]
  · intro q hq hne
    simp only [setConstant, hne, if_false]
    exact modelVars_constant (prepareModel_poi ws.vars hq)
  · intro n hn hsel
    have hne : n ≠ firstPOI := by
      intro e
      apply hdisj n hn
      rw [hfirst, e]
      exact List.mem_cons_self _ _
    simp only [setConstant, hne, if_false]
    rw [modelVars_not_selected hsel]
    exact prepareModel_nuisance ws.vars hn (hdisj n hn)

/-- C6 amended, at `quickCLs -f in.root -n alpha`: `mu` is floated, `mu2` stays
constant, and the POI set becomes the set of `mu`. -/
theorem default_floats_first_poi_witness :
    (main (sampleEnv true) { sampleCommandLine with fixNP := some "alpha" }).callsEngine = true ∧
    (main (sampleEnv true) { sampleCommandLine with fixNP := some "alpha" }).poi
      = some ["mu"] :=
  ⟨(default_floats_first_poi (sampleEnv true) { sampleCommandLine with fixNP := some "alpha" }
      sampleWorkspace sampleModel "mu" ["mu2"] rfl rfl rfl (by decide)).1,
   (default_floats_first_poi (sampleEnv true) { sampleCommandLine with fixNP := some "alpha" }
      sampleWorkspace sampleModel "mu" ["mu2"] rfl rfl rfl (by decide)).2.2.1⟩

/-! ## The terms of the `poi` option -/

/-- C10 fails at `quickCLs -f in.root -p mu=x`: parsing succeeds, the file
opens, workspace, model config and dataset are found, yet `std::stof` throws
on `x`, the process is aborted and `runAsymptoticsCLs` is not called. -/
theorem resolved_inputs_without_engine :
    (resolve (sampleEnv true) { sampleCommandLine with poi := some "mu=x" }).isSome = true ∧
    (main (sampleEnv true) { sampleCommandLine with poi := some "mu=x" }).callsEngine = false ∧
    (main (sampleEnv true) { sampleCommandLine with poi := some "mu=x" }).exit = .aborted := by
  decide

/-- C10, amended: `main` calls `runAsymptoticsCLs` only if the inputs are
resolved (parsing succeeded, `inputFile` given, no help, file opened,
workspace, model config and dataset found), and it does call it when they are
and the preparation of the parameters of interest completes; a run that
reaches the engine returns 1; a parse error returns 999 (or 1000) with no call
made; and when parsing succeeded and the inputs are not resolved, `main`
returns 0 with no call made and the parameters of the workspace, if one was
read, as they were. -/
theorem engine_runs_on_resolved_inputs (env : Env) (cl : CommandLine) :
    ((main env cl).callsEngine = true → (resolve env cl).isSome = true) ∧
    (∀ ws mc, resolve env cl = some (ws, mc) →
      (preparePOIs env ws mc cl.poi.isSome (notify cl).poiStr
        (modelVars env cl ws mc)).isSome = true →
      (main env cl).callsEngine = true) ∧
    ((main env cl).callsEngine = true → (main env cl).exit = .returned 1) ∧
    (cl.parse = .stdException →
      (main env cl).exit = .returned 999 ∧ (main env cl).calls = []) ∧
    (cl.parse = .otherException →
      (main env cl).exit = .returned 1000 ∧ (main env cl).calls = []) ∧
    (cl.parse = .ok → resolve env cl = none →
      (main env cl).exit = .returned 0 ∧ (main env cl).calls = [] ∧
      ∀ vars, (main env cl).vars = some vars →
        ∃ tf ws, env.openFile (notify cl).inputFile = some tf ∧
          tf.get (notify cl).wsName = some ws ∧ vars = ws.vars) := by
  refine ⟨?_, ?_, ?_, ?_, ?_, ?_⟩
  · intro h
    obtain ⟨ws, mc, hr, _⟩ := (callsEngine_iff env cl).1 h
    rw [hr]
    rfl
  · intro ws mc hr hp
    exact (callsEngine_iff env cl).2 ⟨ws, mc, hr, hp⟩
  · intro h
    obtain ⟨ws, mc, hr, hp⟩ := (callsEngine_iff env cl).1 h
    obtain ⟨st, hst⟩ := Option.isSome_iff_exists.1 hp
    rw [main_of_resolve hr, limitSetting_of_some hst]
  · intro hp
    simp [main, hp]
  · intro hp
    simp [main, hp]
  · intro hp h
    unfold resolve at h
    unfold main
    simp only [hp, true_and] at h ⊢
    cases hi : cl.inputFile.isSome <;> cases hh : cl.help <;>
      simp only [hi, hh, Bool.not_true, Bool.not_false, Bool.or_self, Bool.or_true,
        Bool.or_false, Bool.false_eq_true, if_false, if_true, and_self, and_true,
        and_false, true_and] at h ⊢ <;> try simp
    cases hf : env.openFile (notify cl).inputFile with
    | none => simp
    | some tf =>
      simp only [hf] at h ⊢
      cases hw : tf.get (notify cl).wsName with
      | none => simp
      | some ws1 =>
        simp only [hw] at h ⊢
        cases hm : ws1.obj (notify cl).mcName with
        | none => simp [hw]
        | some mc1 =>
          simp only [hm] at h ⊢
          cases hd : ws1.hasData (notify cl).dataName with
          | false => simp [hw]
          | true => simp [hd] at h

/-- C10 amended, at `quickCLs -f in.root` (the engine runs, `main` returns 1),
at `quickCLs -f missing.root` (the file does not open, `main` returns 0 with
no call), and at a command line that does not parse (`main` returns 999). -/
theorem engine_runs_on_resolved_inputs_witness :
    ((main (sampleEnv true) sampleCommandLine).callsEngine = true ∧
      (main (sampleEnv true) sampleCommandLine).exit = .returned 1) ∧
    ((main (sampleEnv true) { sampleCommandLine with inputFile := some "missing.root" }).exit
        = .returned 0 ∧
      (main (sampleEnv true) { sampleCommandLine with inputFile := some "missing.root" }).calls
        = []) ∧
    (main (sampleEnv true) { sampleCommandLine with parse := .stdException }).exit
        = .returned 999 :=
  ⟨⟨(engine_runs_on_resolved_inputs (sampleEnv true) sampleCommandLine).2.1
      sampleWorkspace sampleModel rfl (by decide),
    (engine_runs_on_resolved_inputs (sampleEnv true) sampleCommandLine).2.2.1 (by decide)⟩,
   ⟨((engine_runs_on_resolved_inputs (sampleEnv true)
        { sampleCommandLine with inputFile := some "missing.root" }).2.2.2.2.2 rfl rfl).1,
    ((engine_runs_on_resolved_inputs (sampleEnv true)
        { sampleCommandLine with inputFile := some "missing.root" }).2.2.2.2.2 rfl rfl).2.1⟩,
   ((engine_runs_on_resolved_inputs (sampleEnv true)
      { sampleCommandLine with parse := .stdException }).2.2.2.1 rfl).1⟩

end quickCLs
